import Mathlib

/-!
Shallow embedding of the multi-part UR scanning/reassembly controller of the
psbt-utils repository (the `URReader` component: `handleQRResult`,
`stopScanning`, `clearResults`).  The external `URDecoder` object from the
foundation-ur-py library is modelled abstractly by `URDecoderModel`; the
component's hook state, refs and scanner handle are collected in
`ReaderState`.  `handleQRResult` additionally returns the list of texts that
were passed to the decoder's `receivePart` during the call, so that claims
about what reaches the decoder can be stated.
-/

/-- JS `qrData.toUpperCase().startsWith('UR:')`: per-character upper-casing
followed by the three-character scheme-tag comparison. -/
def hasURScheme (s : String) : Bool :=
  decide ((s.data.map Char.toUpper).take 3 = ['U', 'R', ':'])

/-- The format-rejection message set by `handleQRResult` for text that does
not carry the scheme tag. -/
def notURMsg : String := "Not a valid UR format. QR code should start with \"ur:\""

/-- One attempt of the regex `/\/(\d+)-(\d+)\//` anchored at the head of
`l`: a slash, a maximal non-empty digit run (first capture group), a hyphen,
a maximal non-empty digit run (second capture group), a slash.  The greedy
digit runs of the regex are deterministic here because the characters
delimiting them are not digits, so no backtracking case is needed. -/
def matchSeqAt (l : List Char) : Option (List Char × List Char) :=
  match l with
  | [] => none
  | c :: r1 =>
    if c = '/' then
      let d1 := r1.takeWhile Char.isDigit
      match r1.dropWhile Char.isDigit with
      | [] => none
      | c2 :: r2 =>
        if c2 = '-' then
          let d2 := r2.takeWhile Char.isDigit
          match r2.dropWhile Char.isDigit with
          | [] => none
          | c3 :: _ =>
            if c3 = '/' then
              if d1 = [] then none
              else if d2 = [] then none
              else some (d1, d2)
            else none
        else none
    else none

/-- JS first-match semantics of `/\/(\d+)-(\d+)\//` over a whole string
(`test` is `isSome` of this, `match` yields the capture groups): the start
positions are tried left to right. -/
def findSeqMarker (l : List Char) : Option (List Char × List Char) :=
  match l with
  | [] => none
  | c :: r =>
    match matchSeqAt (c :: r) with
    | some m => some m
    | none => findSeqMarker r

/-- JS `parseInt(digits, 10)` on a non-empty all-digit capture group. -/
def natOfDigits (l : List Char) : Nat :=
  l.foldl (fun a c => a * 10 + (c.toNat - 48)) 0

/-- JS `Math.min((k / n) * 100, 100)`.  In JS, division of the positive `k`
by zero yields Infinity, whose minimum with 100 is 100; `k` is at least 1 at
every call site of this function. -/
def fbp (k n : Nat) : Rat :=
  if n = 0 then 100
  else if ((k : Rat) / (n : Rat)) * 100 ≤ 100 then ((k : Rat) / (n : Rat)) * 100
  else 100

/-- The fallback progress estimate computed from the fragment's own marker:
`qrData.match(/\/(\d+)-(\d+)\//)` followed by `parseInt` of the second
capture group; the local `estimatedProgress` keeps its initial value 0 when
no match is found. -/
def fallbackFromMarker (t : String) (k : Nat) : Rat :=
  match findSeqMarker t.data with
  | some p => fbp k (natOfDigits p.2)
  | none => 0

/-- JS `b.toString(16).padStart(2, '0')` for one CBOR byte value:
lowercase hex digits, left-padded to width two. -/
def hexByte (b : Nat) : List Char :=
  let ds := Nat.toDigits 16 b
  if ds.length < 2 then '0' :: ds else ds

/-- The success payload string built in `handleQRResult`: the full hex dump
for the `crypto-psbt` type, only the byte count for any other type. -/
def formatResult (r : String × List Nat) : String :=
  if r.1 = "crypto-psbt" then
    "UR Type: " ++ r.1 ++ "\nCBOR Data (hex): " ++ String.mk (r.2.map hexByte).flatten
  else
    "UR Type: " ++ r.1 ++ "\nCBOR Data: " ++ toString r.2.length ++ " bytes"

/-- Abstract model of the external `URDecoder` object: `receivePart` may
throw (modelled as `Except.error` carrying the thrown message);
`hasEstimator` models `typeof decoder.estimatedPercentComplete ===
'function'`, and the estimator call itself may throw (`none`).
`resultMessage` packages the decoded type tag and CBOR byte values. -/
structure URDecoderModel (D : Type) where
  init : D
  receivePart : D → String → Except String D
  isComplete : D → Bool
  isSuccess : D → Bool
  resultMessage : D → String × List Nat
  resultError : D → String
  hasEstimator : Bool
  estimatedPercentComplete : D → Option Rat

/-- The component state touched by the reassembly logic: the hook states
`isScanning`, `decodedData`, `error`, `progress`, `partsCount`,
`isMultiPart`, the refs `urDecoderRef` and `scannedPartsRef` (the Scanned
Fragment Set, in insertion order), and whether a scanner handle exists
(`qrScannerRef.current !== null`). -/
structure ReaderState (D : Type) where
  isScanning : Bool
  decodedData : Option String
  error : Option String
  progress : Rat
  partsCount : Nat
  isMultiPart : Bool
  urDecoder : Option D
  scannedParts : List String
  qrScanner : Bool
deriving DecidableEq

variable {D : Type}

/-- `setIsScanning` hook setter. -/
def setIsScanning (s : ReaderState D) (b : Bool) : ReaderState D :=
  ⟨b, s.decodedData, s.error, s.progress, s.partsCount, s.isMultiPart,
   s.urDecoder, s.scannedParts, s.qrScanner⟩

/-- `setDecodedData` hook setter. -/
def setDecodedData (s : ReaderState D) (v : Option String) : ReaderState D :=
  ⟨s.isScanning, v, s.error, s.progress, s.partsCount, s.isMultiPart,
   s.urDecoder, s.scannedParts, s.qrScanner⟩

/-- `setError` hook setter. -/
def setError (s : ReaderState D) (v : Option String) : ReaderState D :=
  ⟨s.isScanning, s.decodedData, v, s.progress, s.partsCount, s.isMultiPart,
   s.urDecoder, s.scannedParts, s.qrScanner⟩

/-- `setProgress` hook setter. -/
def setProgress (s : ReaderState D) (v : Rat) : ReaderState D :=
  ⟨s.isScanning, s.decodedData, s.error, v, s.partsCount, s.isMultiPart,
   s.urDecoder, s.scannedParts, s.qrScanner⟩

/-- `setPartsCount` hook setter. -/
def setPartsCount (s : ReaderState D) (v : Nat) : ReaderState D :=
  ⟨s.isScanning, s.decodedData, s.error, s.progress, v, s.isMultiPart,
   s.urDecoder, s.scannedParts, s.qrScanner⟩

/-- `setIsMultiPart` hook setter. -/
def setIsMultiPart (s : ReaderState D) (b : Bool) : ReaderState D :=
  ⟨s.isScanning, s.decodedData, s.error, s.progress, s.partsCount, b,
   s.urDecoder, s.scannedParts, s.qrScanner⟩

/-- Assignment to `urDecoderRef.current`. -/
def setURDecoder (s : ReaderState D) (v : Option D) : ReaderState D :=
  ⟨s.isScanning, s.decodedData, s.error, s.progress, s.partsCount,
   s.isMultiPart, v, s.scannedParts, s.qrScanner⟩

/-- Mutation of `scannedPartsRef.current`. -/
def setScannedParts (s : ReaderState D) (v : List String) : ReaderState D :=
  ⟨s.isScanning, s.decodedData, s.error, s.progress, s.partsCount,
   s.isMultiPart, s.urDecoder, v, s.qrScanner⟩

/-- `stopScanning()`: stop and destroy the scanner handle (set the ref to
null) and clear the scanning flag; nothing else is touched ("Don't reset
decoder and scanned parts here"). -/
def stopScanning (s : ReaderState D) : ReaderState D :=
  ⟨false, s.decodedData, s.error, s.progress, s.partsCount, s.isMultiPart,
   s.urDecoder, s.scannedParts, false⟩

/-- `clearResults()`: clear payload, error, progress, parts count and
multi-part flag, drop the decoder instance and empty the Scanned Fragment
Set; the scanning flag and scanner handle are not touched. -/
def clearResults (s : ReaderState D) : ReaderState D :=
  ⟨s.isScanning, none, none, 0, 0, false, none, [], s.qrScanner⟩

/-- `handleQRResult(qrData)`: one scanner callback.  Returns the new state
together with the list of texts passed to the decoder's `receivePart`
during the call (empty or a singleton). -/
def handleQRResult (M : URDecoderModel D) (s0 : ReaderState D) (qrData : String) :
    ReaderState D × List String :=
  let s := setError s0 none
  if hasURScheme qrData = false then
    (setError s (some notURMsg), [])
  else if qrData ∈ s.scannedParts then
    (s, [])
  else
    let s1 := setIsMultiPart (setScannedParts s (s.scannedParts ++ [qrData]))
        ((findSeqMarker qrData.data).isSome)
    if (findSeqMarker qrData.data).isSome then
      -- lazily construct the decoder, then `try { receivePart ... }`
      let dec := s1.urDecoder.getD M.init
      match M.receivePart dec qrData with
      | Except.error m =>
        (setError (setURDecoder s1 (some dec))
            (some ("Error processing UR part: " ++ m)), [qrData])
      | Except.ok dec2 =>
        let k := s1.scannedParts.length
        let est : Rat :=
          if M.hasEstimator then
            match M.estimatedPercentComplete dec2 with
            | some e => e * 100
            | none => fallbackFromMarker qrData k
          else fallbackFromMarker qrData k
        let s2 := setProgress (setPartsCount (setURDecoder s1 (some dec2)) k) est
        if M.isComplete dec2 then
          let s3 := setProgress s2 100
          if M.isSuccess dec2 then
            (stopScanning (setDecodedData s3
                (some (formatResult (M.resultMessage dec2)))), [qrData])
          else
            (stopScanning (setError s3
                (some ("Decoding failed: " ++ M.resultError dec2))), [qrData])
        else (s2, [qrData])
    else
      (stopScanning (setProgress (setDecodedData s1 (some qrData)) 100), [])

/-- Folding a sequence of scanner callbacks over the state. -/
def runFragments (M : URDecoderModel D) (s : ReaderState D) : List String → ReaderState D
  | [] => s
  | t :: ts => runFragments M (handleQRResult M s t).1 ts

/-- The session state right after `startScanning` finished its reset block:
scanning, pending outcome, empty Scanned Fragment Set, no decoder. -/
def initSession : ReaderState D :=
  ⟨true, none, none, 0, 0, false, none, [], true⟩

/-- A pending session: no payload, no error, zero progress, no parts, no
decoder, empty Scanned Fragment Set. -/
def isPending (s : ReaderState D) : Prop :=
  s.decodedData = none ∧ s.error = none ∧ s.progress = 0 ∧ s.partsCount = 0 ∧
  s.isMultiPart = false ∧ s.urDecoder = none ∧ s.scannedParts = []

/-- Spec-side characterization of a multi-part fragment: the text contains,
anywhere, a substring of the shape slash, one or more digits, hyphen, one or
more digits, slash. -/
def hasSeqSubstring (s : String) : Prop :=
  ∃ pre d1 d2 post : List Char,
    d1 ≠ [] ∧ d2 ≠ [] ∧ (∀ c ∈ d1, c.isDigit = true) ∧
    (∀ c ∈ d2, c.isDigit = true) ∧
    s.data = pre ++ '/' :: (d1 ++ '-' :: (d2 ++ '/' :: post))

/-- Concrete decoder instance whose `receivePart` always succeeds and that
never reports completion (a fountain decode still in flight). -/
def okDec : URDecoderModel Unit :=
  ⟨(), fun _ _ => Except.ok (), fun _ => false, fun _ => false,
   fun _ => ("", []), fun _ => "", false, fun _ => none⟩

/-- Concrete decoder instance whose `receivePart` always throws. -/
def throwDec : URDecoderModel Unit :=
  ⟨(), fun _ _ => Except.error "boom", fun _ => false, fun _ => false,
   fun _ => ("", []), fun _ => "", false, fun _ => none⟩

/-- Concrete decoder instance that completes successfully with a one-byte
payload of the non-psbt type tag "bytes". -/
def doneDecA : URDecoderModel Unit :=
  ⟨(), fun _ _ => Except.ok (), fun _ => true, fun _ => true,
   fun _ => ("bytes", [13]), fun _ => "", false, fun _ => none⟩

/-- Like `doneDecA` but with a different decoded byte. -/
def doneDecB : URDecoderModel Unit :=
  ⟨(), fun _ _ => Except.ok (), fun _ => true, fun _ => true,
   fun _ => ("bytes", [14]), fun _ => "", false, fun _ => none⟩

/-- Concrete decoder instance that completes with a failure report. -/
def failDec : URDecoderModel Unit :=
  ⟨(), fun _ _ => Except.ok (), fun _ => true, fun _ => false,
   fun _ => ("", []), fun _ => "checksum mismatch", false, fun _ => none⟩

/-- A session in which one valid multi-part fragment was scanned and then a
foreign QR code was scanned, leaving a visible format error. -/
def c2midState : ReaderState Unit :=
  (handleQRResult okDec
    (handleQRResult okDec initSession "ur:a/1-2/b").1 "zzz").1

/-- A session in which one valid multi-part fragment was scanned and the
decoder threw while receiving it. -/
def c9midState : ReaderState Unit :=
  (handleQRResult throwDec initSession "ur:z/1-5/q").1

/-- The session reached by scanning one completing fragment with `doneDecA`. -/
def c4runA : ReaderState Unit :=
  (handleQRResult doneDecA initSession "ur:a/1-1/x").1

/-- The session reached by scanning one completing fragment with `doneDecB`. -/
def c4runB : ReaderState Unit :=
  (handleQRResult doneDecB initSession "ur:a/1-1/x").1

/-! ### Step lemmas for the four branches of `handleQRResult` -/

theorem step_invalid (M : URDecoderModel D) (s : ReaderState D) (t : String)
    (hp : hasURScheme t = false) :
    handleQRResult M s t = (setError s (some notURMsg), []) := by
  simp [handleQRResult, hp, setError]

theorem step_mem (M : URDecoderModel D) (s : ReaderState D) (t : String)
    (hp : hasURScheme t = true) (hc : t ∈ s.scannedParts) :
    handleQRResult M s t = (setError s none, []) := by
  simp [handleQRResult, hp, setError, hc]

theorem step_single (M : URDecoderModel D) (s : ReaderState D) (t : String)
    (hp : hasURScheme t = true) (hm : findSeqMarker t.data = none)
    (hc : t ∉ s.scannedParts) :
    handleQRResult M s t =
      (stopScanning (setProgress (setDecodedData
        (setIsMultiPart (setScannedParts (setError s none) (s.scannedParts ++ [t])) false)
        (some t)) 100), []) := by
  simp [handleQRResult, hp, hm, setError, hc]

theorem step_throw (M : URDecoderModel D) (s : ReaderState D) (t : String) (m : String)
    (hp : hasURScheme t = true) (hc : t ∉ s.scannedParts)
    (hmk : (findSeqMarker t.data).isSome = true)
    (hr : M.receivePart (s.urDecoder.getD M.init) t = Except.error m) :
    handleQRResult M s t =
      (setError (setURDecoder
          (setIsMultiPart (setScannedParts (setError s none) (s.scannedParts ++ [t])) true)
          (some (s.urDecoder.getD M.init)))
        (some ("Error processing UR part: " ++ m)), [t]) := by
  simp [handleQRResult, hp, hmk, setError, setScannedParts, setIsMultiPart, hc, hr]

theorem step_multi_ok (M : URDecoderModel D) (s : ReaderState D) (t : String) (d2 : D)
    (hp : hasURScheme t = true) (hc : t ∉ s.scannedParts)
    (hmk : (findSeqMarker t.data).isSome = true)
    (hr : M.receivePart (s.urDecoder.getD M.init) t = Except.ok d2)
    (hnc : M.isComplete d2 = false) :
    handleQRResult M s t =
      (setProgress (setPartsCount (setURDecoder
          (setIsMultiPart (setScannedParts (setError s none) (s.scannedParts ++ [t])) true)
          (some d2)) (s.scannedParts.length + 1))
        (if M.hasEstimator then
          match M.estimatedPercentComplete d2 with
          | some e => e * 100
          | none => fallbackFromMarker t (s.scannedParts.length + 1)
         else fallbackFromMarker t (s.scannedParts.length + 1)), [t]) := by
  simp [handleQRResult, hp, hmk, setError, setScannedParts, setIsMultiPart, hc, hr, hnc]

theorem step_complete (M : URDecoderModel D) (s : ReaderState D) (t : String) (d2 : D)
    (hp : hasURScheme t = true) (hc : t ∉ s.scannedParts)
    (hmk : (findSeqMarker t.data).isSome = true)
    (hr : M.receivePart (s.urDecoder.getD M.init) t = Except.ok d2)
    (hdone : M.isComplete d2 = true) :
    handleQRResult M s t =
      ((if M.isSuccess d2 then
          stopScanning (setDecodedData (setProgress (setProgress (setPartsCount (setURDecoder
            (setIsMultiPart (setScannedParts (setError s none) (s.scannedParts ++ [t])) true)
            (some d2)) (s.scannedParts.length + 1))
            (if M.hasEstimator then
              match M.estimatedPercentComplete d2 with
              | some e => e * 100
              | none => fallbackFromMarker t (s.scannedParts.length + 1)
             else fallbackFromMarker t (s.scannedParts.length + 1))) 100)
            (some (formatResult (M.resultMessage d2))))
        else
          stopScanning (setError (setProgress (setProgress (setPartsCount (setURDecoder
            (setIsMultiPart (setScannedParts (setError s none) (s.scannedParts ++ [t])) true)
            (some d2)) (s.scannedParts.length + 1))
            (if M.hasEstimator then
              match M.estimatedPercentComplete d2 with
              | some e => e * 100
              | none => fallbackFromMarker t (s.scannedParts.length + 1)
             else fallbackFromMarker t (s.scannedParts.length + 1))) 100)
            (some ("Decoding failed: " ++ M.resultError d2)))), [t]) := by
  by_cases hs : M.isSuccess d2 = true <;>
    simp [handleQRResult, hp, hmk, setError, setScannedParts, setIsMultiPart, hc, hr, hdone, hs]

/-- In every branch, the Scanned Fragment Set is either untouched or grows
by exactly the new text. -/
theorem handleQRResult_parts_or (M : URDecoderModel D) (s : ReaderState D) (t : String) :
    (handleQRResult M s t).1.scannedParts = s.scannedParts ∨
    (handleQRResult M s t).1.scannedParts = s.scannedParts ++ [t] := by
  by_cases hp : hasURScheme t = true
  · by_cases hc : t ∈ s.scannedParts
    · rw [step_mem M s t hp hc]; left; rfl
    · by_cases hmk : (findSeqMarker t.data).isSome = true
      · rcases hr : M.receivePart (s.urDecoder.getD M.init) t with m | d2
        · rw [step_throw M s t m hp hc hmk hr]; right; rfl
        · by_cases hdone : M.isComplete d2 = true
          · rw [step_complete M s t d2 hp hc hmk hr hdone]; right
            by_cases hs : M.isSuccess d2 = true <;>
              simp [hs, stopScanning, setError, setDecodedData, setProgress, setPartsCount,
                setURDecoder, setIsMultiPart, setScannedParts]
          · rw [step_multi_ok M s t d2 hp hc hmk hr (by simpa using hdone)]; right; rfl
      · rw [step_single M s t hp (by simpa using hmk) hc]; right; rfl
  · rw [step_invalid M s t (by simpa using hp)]; left; rfl

/-- In every branch, at most the new text itself is passed to the decoder. -/
theorem handleQRResult_fed_or (M : URDecoderModel D) (s : ReaderState D) (t : String) :
    (handleQRResult M s t).2 = [] ∨ (handleQRResult M s t).2 = [t] := by
  by_cases hp : hasURScheme t = true
  · by_cases hc : t ∈ s.scannedParts
    · rw [step_mem M s t hp hc]; left; rfl
    · by_cases hmk : (findSeqMarker t.data).isSome = true
      · rcases hr : M.receivePart (s.urDecoder.getD M.init) t with m | d2
        · rw [step_throw M s t m hp hc hmk hr]; right; rfl
        · by_cases hdone : M.isComplete d2 = true
          · rw [step_complete M s t d2 hp hc hmk hr hdone]; right; rfl
          · rw [step_multi_ok M s t d2 hp hc hmk hr (by simpa using hdone)]; right; rfl
      · rw [step_single M s t hp (by simpa using hmk) hc]; left; rfl
  · rw [step_invalid M s t (by simpa using hp)]; left; rfl

/-- After a callback with a scheme-tagged text, the text is in the Scanned
Fragment Set. -/
theorem handleQRResult_mem_after (M : URDecoderModel D) (s : ReaderState D) (t : String)
    (hp : hasURScheme t = true) : t ∈ (handleQRResult M s t).1.scannedParts := by
  by_cases hc : t ∈ s.scannedParts
  · rw [step_mem M s t hp hc]; exact hc
  · rcases handleQRResult_parts_or M s t with h | h
    · rw [h]
      exfalso
      by_cases hmk : (findSeqMarker t.data).isSome = true
      · rcases hr : M.receivePart (s.urDecoder.getD M.init) t with m | d2
        · rw [step_throw M s t m hp hc hmk hr] at h
          simp [setError, setURDecoder, setIsMultiPart, setScannedParts] at h
        · by_cases hdone : M.isComplete d2 = true
          · rw [step_complete M s t d2 hp hc hmk hr hdone] at h
            by_cases hs : M.isSuccess d2 = true <;>
              simp [hs, stopScanning, setError, setDecodedData, setProgress, setPartsCount,
                setURDecoder, setIsMultiPart, setScannedParts] at h
          · rw [step_multi_ok M s t d2 hp hc hmk hr (by simpa using hdone)] at h
            simp [setError, setProgress, setPartsCount, setURDecoder, setIsMultiPart,
              setScannedParts] at h
      · rw [step_single M s t hp (by simpa using hmk) hc] at h
        simp [stopScanning, setError, setDecodedData, setProgress, setIsMultiPart,
          setScannedParts] at h
    · rw [h]; simp

/-- C1: a scanned string that does not carry the case-insensitive scheme tag
is rejected with the fixed format-error message; the Scanned Fragment Set,
the progress, the decoded payload, the decoder reference and the parts
count are untouched, and nothing is passed to the decoder. -/
theorem c1_format_rejected (M : URDecoderModel D) (s : ReaderState D) (t : String)
    (hp : hasURScheme t = false) :
    (handleQRResult M s t).1.error = some notURMsg ∧
    (handleQRResult M s t).1.scannedParts = s.scannedParts ∧
    (handleQRResult M s t).2 = [] ∧
    (handleQRResult M s t).1.progress = s.progress ∧
    (handleQRResult M s t).1.decodedData = s.decodedData ∧
    (handleQRResult M s t).1.urDecoder = s.urDecoder ∧
    (handleQRResult M s t).1.partsCount = s.partsCount := by
  rw [step_invalid M s t hp]
  exact ⟨rfl, rfl, rfl, rfl, rfl, rfl, rfl⟩

/-- C1 instantiated: the foreign text "hello" is rejected and advances
nothing. -/
theorem c1_format_rejected_holds :
    hasURScheme "hello" = false ∧
    (handleQRResult okDec initSession "hello").1.error = some notURMsg ∧
    (handleQRResult okDec initSession "hello").1.scannedParts = [] ∧
    (handleQRResult okDec initSession "hello").2 = [] ∧
    (handleQRResult okDec initSession "hello").1.progress = 0 := by
  have h := c1_format_rejected okDec (initSession : ReaderState Unit) "hello" (by decide)
  exact ⟨by decide, h.1, h.2.1, h.2.2.1, h.2.2.2.1⟩

/-- C3: a fresh scheme-tagged fragment with no sequence marker completes
the session at once: its text becomes the payload, progress is 100,
scanning stops and the scanner handle is released, while the decoder
reference is untouched and nothing is passed to the decoder. -/
theorem c3_single_part (M : URDecoderModel D) (s : ReaderState D) (t : String)
    (hp : hasURScheme t = true) (hm : findSeqMarker t.data = none)
    (hc : t ∉ s.scannedParts) :
    (handleQRResult M s t).1.decodedData = some t ∧
    (handleQRResult M s t).1.progress = 100 ∧
    (handleQRResult M s t).1.isScanning = false ∧
    (handleQRResult M s t).1.qrScanner = false ∧
    (handleQRResult M s t).1.urDecoder = s.urDecoder ∧
    (handleQRResult M s t).2 = [] := by
  rw [step_single M s t hp hm hc]
  exact ⟨rfl, rfl, rfl, rfl, rfl, rfl⟩

/-- C3 instantiated: "ur:abc" completes the session immediately even though
a decoder from an earlier multi-part scan exists. -/
theorem c3_single_part_holds :
    hasURScheme "ur:abc" = true ∧ findSeqMarker "ur:abc".data = none ∧
    (handleQRResult okDec (setURDecoder initSession (some ())) "ur:abc").1.decodedData =
      some "ur:abc" ∧
    (handleQRResult okDec (setURDecoder initSession (some ())) "ur:abc").1.progress = 100 ∧
    (handleQRResult okDec (setURDecoder initSession (some ())) "ur:abc").1.isScanning = false ∧
    (handleQRResult okDec (setURDecoder initSession (some ())) "ur:abc").2 = [] := by
  have h := c3_single_part okDec (setURDecoder initSession (some ())) "ur:abc"
    (by decide) (by decide) (by decide)
  exact ⟨by decide, by decide, h.1, h.2.1, h.2.2.1, h.2.2.2.2.2⟩

/-- C8: `stopScanning` releases the scanner handle and clears the scanning
flag while every piece of in-flight reassembly state (Scanned Fragment Set,
decoder reference, progress, parts count, payload, error, multi-part flag)
is retained unchanged. -/
theorem c8_stop_retains (s : ReaderState D) :
    (stopScanning s).scannedParts = s.scannedParts ∧
    (stopScanning s).urDecoder = s.urDecoder ∧
    (stopScanning s).progress = s.progress ∧
    (stopScanning s).partsCount = s.partsCount ∧
    (stopScanning s).decodedData = s.decodedData ∧
    (stopScanning s).error = s.error ∧
    (stopScanning s).isMultiPart = s.isMultiPart ∧
    (stopScanning s).isScanning = false ∧
    (stopScanning s).qrScanner = false :=
  ⟨rfl, rfl, rfl, rfl, rfl, rfl, rfl, rfl, rfl⟩

/-- C2 counterexample: re-submitting an already-present fragment text is
not a no-op.  After scanning one valid multi-part fragment and then a
foreign QR code, the session shows a format error; re-scanning the seen
fragment clears that error (the `setError(null)` at the top of
`handleQRResult` runs before the dedup check), so the state changes. -/
theorem c2_counterexample :
    "ur:a/1-2/b" ∈ c2midState.scannedParts ∧
    (handleQRResult okDec c2midState "ur:a/1-2/b").1 ≠ c2midState := by
  constructor
  · decide
  · decide

/-- C2 amended: over two submissions of the same text the Scanned Fragment
Set grows by at most one and the text is passed to the decoder at most
once; the second submission of an already-present scheme-tagged text adds
nothing, feeds nothing to the decoder, and changes nothing except
resetting the error field to none. -/
theorem c2_dedup_amended (M : URDecoderModel D) (s : ReaderState D) (t : String) :
    (handleQRResult M (handleQRResult M s t).1 t).1.scannedParts.length ≤
      s.scannedParts.length + 1 ∧
    ((handleQRResult M s t).2 ++ (handleQRResult M (handleQRResult M s t).1 t).2).count t ≤ 1 ∧
    (hasURScheme t = true →
      (handleQRResult M (handleQRResult M s t).1 t).1 =
        setError (handleQRResult M s t).1 none ∧
      (handleQRResult M (handleQRResult M s t).1 t).2 = []) := by
  by_cases hp : hasURScheme t = true
  · have hmem := handleQRResult_mem_after M s t hp
    have h2 := step_mem M (handleQRResult M s t).1 t hp hmem
    refine ⟨?_, ?_, fun _ => ⟨by rw [h2], by rw [h2]⟩⟩
    · rw [h2]
      simp only [setError]
      rcases handleQRResult_parts_or M s t with h | h <;> simp [h]
    · rw [h2]
      simp only [List.append_nil]
      rcases handleQRResult_fed_or M s t with h | h <;> simp [h]
  · have hp' : hasURScheme t = false := by simpa using hp
    have h1 := step_invalid M s t hp'
    have h2 := step_invalid M (handleQRResult M s t).1 t hp'
    rw [h2, h1]
    exact ⟨by simp [setError], by simp, fun h => absurd h hp⟩

/-- C2 amended, instantiated on a concrete double submission. -/
theorem c2_dedup_amended_holds :
    (handleQRResult okDec (handleQRResult okDec initSession "ur:a/1-2/b").1
        "ur:a/1-2/b").1.scannedParts.length ≤ 1 ∧
    ((handleQRResult okDec initSession "ur:a/1-2/b").2 ++
      (handleQRResult okDec (handleQRResult okDec initSession "ur:a/1-2/b").1
        "ur:a/1-2/b").2).count "ur:a/1-2/b" ≤ 1 ∧
    (handleQRResult okDec (handleQRResult okDec initSession "ur:a/1-2/b").1
        "ur:a/1-2/b").2 = [] := by
  have h := c2_dedup_amended okDec (initSession : ReaderState Unit) "ur:a/1-2/b"
  exact ⟨h.1, h.2.1, (h.2.2 (by decide)).2⟩

/-- C9 counterexample: after a decoder exception the fragment stays in the
set and an error is shown, but re-submitting that same text is not a no-op:
it clears the displayed error. -/
theorem c9_counterexample :
    c9midState.scannedParts = ["ur:z/1-5/q"] ∧
    c9midState.error = some "Error processing UR part: boom" ∧
    (handleQRResult throwDec c9midState "ur:z/1-5/q").1 ≠ c9midState := by
  refine ⟨by decide, by decide, by decide⟩

/-- C9 amended: a new multi-part fragment is recorded in the Scanned
Fragment Set before `receivePart` runs; when `receivePart` throws, the
fragment stays recorded, the thrown message is surfaced, and any later
re-submission of the same text adds nothing, is never delivered to the
decoder again, and only resets the error field. -/
theorem c9_throw_not_atomic (M : URDecoderModel D) (s : ReaderState D) (t m : String)
    (hp : hasURScheme t = true) (hc : t ∉ s.scannedParts)
    (hmk : (findSeqMarker t.data).isSome = true)
    (hr : M.receivePart (s.urDecoder.getD M.init) t = Except.error m) :
    (handleQRResult M s t).1.scannedParts = s.scannedParts ++ [t] ∧
    (handleQRResult M s t).2 = [t] ∧
    (handleQRResult M s t).1.error = some ("Error processing UR part: " ++ m) ∧
    (handleQRResult M (handleQRResult M s t).1 t).1 =
      setError (handleQRResult M s t).1 none ∧
    (handleQRResult M (handleQRResult M s t).1 t).2 = [] := by
  have h1 := step_throw M s t m hp hc hmk hr
  have hmem : t ∈ (handleQRResult M s t).1.scannedParts := by
    rw [h1]; simp [setError, setURDecoder, setIsMultiPart, setScannedParts]
  have h2 := step_mem M (handleQRResult M s t).1 t hp hmem
  refine ⟨?_, by rw [h1], ?_, by rw [h2], by rw [h2]⟩
  · rw [h1]; simp [setError, setURDecoder, setIsMultiPart, setScannedParts]
  · rw [h1]; simp [setError, setURDecoder, setIsMultiPart, setScannedParts]

/-- C9 amended, instantiated with a throwing decoder. -/
theorem c9_throw_not_atomic_holds :
    (handleQRResult throwDec initSession "ur:z/1-5/q").1.scannedParts = ["ur:z/1-5/q"] ∧
    (handleQRResult throwDec initSession "ur:z/1-5/q").2 = ["ur:z/1-5/q"] ∧
    (handleQRResult throwDec initSession "ur:z/1-5/q").1.error =
      some "Error processing UR part: boom" ∧
    (handleQRResult throwDec (handleQRResult throwDec initSession "ur:z/1-5/q").1
      "ur:z/1-5/q").2 = [] := by
  have h := c9_throw_not_atomic throwDec (initSession : ReaderState Unit) "ur:z/1-5/q" "boom"
    (by decide) (by decide) (by decide) rfl
  exact ⟨h.1, h.2.1, h.2.2.1, h.2.2.2.2⟩

/-- The terminal failure message can never collide with the recoverable
wrong-format message, whatever the codec reports. -/
theorem decodeFailed_ne_notURMsg (x : String) : "Decoding failed: " ++ x ≠ notURMsg := by
  intro h
  have hd : ("Decoding failed: ").data ++ x.data = notURMsg.data := by
    have := congrArg String.data h
    rwa [String.data_append] at this
  have ht := congrArg (List.take ("Decoding failed: ").data.length) hd
  rw [List.take_left] at ht
  exact absurd ht (by decide)

/-- C4 counterexample: for a successful completion whose type tag is not
crypto-psbt, the decoded bytes are not exposed in the payload — two
decoders that return different byte contents of equal length produce
byte-identical terminal sessions, so the payload cannot expose the bytes. -/
theorem c4_counterexample :
    doneDecA.resultMessage () ≠ doneDecB.resultMessage () ∧
    doneDecA.isSuccess () = true ∧ doneDecB.isSuccess () = true ∧
    c4runA = c4runB := by
  refine ⟨by decide, rfl, rfl, by decide⟩

/-- C4 amended: when the decoder reports completion after a fresh
multi-part fragment, scanning stops and the session is terminal.  On
success the payload exposes the decoded type together with the full hex
bytes when the type is crypto-psbt and only the byte count otherwise
(`formatResult`); on failure the error is "Decoding failed: " followed by
the codec's `resultError`, always distinct from the wrong-format message. -/
theorem c4_completion_amended (M : URDecoderModel D) (s : ReaderState D) (t : String) (d2 : D)
    (hp : hasURScheme t = true) (hc : t ∉ s.scannedParts)
    (hmk : (findSeqMarker t.data).isSome = true)
    (hr : M.receivePart (s.urDecoder.getD M.init) t = Except.ok d2)
    (hdone : M.isComplete d2 = true) :
    (handleQRResult M s t).1.isScanning = false ∧
    (handleQRResult M s t).1.qrScanner = false ∧
    (handleQRResult M s t).1.progress = 100 ∧
    (M.isSuccess d2 = true →
      (handleQRResult M s t).1.decodedData = some (formatResult (M.resultMessage d2)) ∧
      (handleQRResult M s t).1.error = none) ∧
    (M.isSuccess d2 = false →
      (handleQRResult M s t).1.error = some ("Decoding failed: " ++ M.resultError d2) ∧
      ∀ x : String, "Decoding failed: " ++ x ≠ notURMsg) := by
  have h := step_complete M s t d2 hp hc hmk hr hdone
  by_cases hs : M.isSuccess d2 = true
  · rw [h, if_pos hs]
    exact ⟨rfl, rfl, rfl, fun _ => ⟨rfl, rfl⟩, fun hf => absurd hs (by simp [hf])⟩
  · rw [h, if_neg hs]
    refine ⟨rfl, rfl, rfl, fun htr => absurd htr hs, fun _ => ⟨rfl, decodeFailed_ne_notURMsg⟩⟩

/-- C4 amended, instantiated with a decoder that completes in failure. -/
theorem c4_completion_amended_holds :
    (handleQRResult failDec initSession "ur:a/1-1/x").1.isScanning = false ∧
    (handleQRResult failDec initSession "ur:a/1-1/x").1.qrScanner = false ∧
    (handleQRResult failDec initSession "ur:a/1-1/x").1.progress = 100 ∧
    (handleQRResult failDec initSession "ur:a/1-1/x").1.error =
      some ("Decoding failed: " ++ "checksum mismatch") := by
  have h := c4_completion_amended failDec (initSession : ReaderState Unit) "ur:a/1-1/x" ()
    (by decide) (by decide) (by decide) rfl rfl
  exact ⟨h.1, h.2.1, h.2.2.1, (h.2.2.2.2 rfl).1⟩

/-- For a nonzero declared total the JS fallback is the capped ratio. -/
theorem fbp_eq_min (k n : Nat) (hn : n ≠ 0) :
    fbp k n = min ((k : Rat) / (n : Rat) * 100) 100 := by
  unfold fbp
  rw [if_neg hn, min_def]

/-- C5: after a fresh multi-part fragment is received without completing
the decode, the new progress is the decoder's own estimate times 100 when
the decoder exposes a working estimator, and otherwise the capped ratio of
unique fragments over the declared total parsed from this fragment's own
marker. -/
theorem c5_progress_recompute (M : URDecoderModel D) (s : ReaderState D) (t : String)
    (d2 : D) (g1 g2 : List Char)
    (hp : hasURScheme t = true) (hc : t ∉ s.scannedParts)
    (hm : findSeqMarker t.data = some (g1, g2))
    (hr : M.receivePart (s.urDecoder.getD M.init) t = Except.ok d2)
    (hn : natOfDigits g2 ≠ 0)
    (hnc : M.isComplete d2 = false) :
    (handleQRResult M s t).1.progress =
      if M.hasEstimator then
        match M.estimatedPercentComplete d2 with
        | some e => e * 100
        | none =>
          min (((s.scannedParts.length + 1 : Nat) : Rat) / ((natOfDigits g2 : Nat) : Rat) * 100) 100
      else
        min (((s.scannedParts.length + 1 : Nat) : Rat) / ((natOfDigits g2 : Nat) : Rat) * 100) 100 := by
  rw [step_multi_ok M s t d2 hp hc (by simp [hm]) hr hnc]
  have hf : fallbackFromMarker t (s.scannedParts.length + 1) =
      min (((s.scannedParts.length + 1 : Nat) : Rat) / ((natOfDigits g2 : Nat) : Rat) * 100) 100 := by
    simp only [fallbackFromMarker, hm]
    exact fbp_eq_min _ _ hn
  show (if M.hasEstimator then
          match M.estimatedPercentComplete d2 with
          | some e => e * 100
          | none => fallbackFromMarker t (s.scannedParts.length + 1)
        else fallbackFromMarker t (s.scannedParts.length + 1)) = _
  rw [hf]

/-- C5 instantiated: a first fragment declaring two total parts, and a
decoder with no estimator, give the fallback value. -/
theorem c5_progress_recompute_holds :
    (handleQRResult okDec initSession "ur:a/1-2/b").1.progress =
      if okDec.hasEstimator then
        match okDec.estimatedPercentComplete () with
        | some e => e * 100
        | none => min (((0 + 1 : Nat) : Rat) / ((natOfDigits ['2'] : Nat) : Rat) * 100) 100
      else min (((0 + 1 : Nat) : Rat) / ((natOfDigits ['2'] : Nat) : Rat) * 100) 100 := by
  exact c5_progress_recompute okDec (initSession : ReaderState Unit) "ur:a/1-2/b" ()
    ['1'] ['2'] (by decide) (by decide) (by decide) rfl (by decide) rfl

/-- C7: `clearResults` empties the Scanned Fragment Set, drops the decoder,
zeroes progress and parts count, clears payload, error and multi-part flag;
it is the identity on an already-pending session; and afterwards a
scheme-tagged text is treated as new: it is added to the set and, if
multi-part, fed to a decoder freshly constructed from `init`. -/
theorem c7_reset_clears (M : URDecoderModel D) (s : ReaderState D) (t : String) :
    (clearResults s).scannedParts = [] ∧
    (clearResults s).urDecoder = none ∧
    (clearResults s).progress = 0 ∧
    (clearResults s).decodedData = none ∧
    (clearResults s).error = none ∧
    (clearResults s).partsCount = 0 ∧
    (clearResults s).isMultiPart = false ∧
    (isPending s → clearResults s = s) ∧
    (hasURScheme t = true →
      (handleQRResult M (clearResults s) t).1.scannedParts = [t] ∧
      ((findSeqMarker t.data).isSome = true →
        (handleQRResult M (clearResults s) t).2 = [t] ∧
        (handleQRResult M (clearResults s) t).1.urDecoder =
          some (match M.receivePart M.init t with
                | Except.ok d2 => d2
                | Except.error _ => M.init)) ∧
      ((findSeqMarker t.data).isSome = false →
        (handleQRResult M (clearResults s) t).1.decodedData = some t ∧
        (handleQRResult M (clearResults s) t).2 = [])) := by
  refine ⟨rfl, rfl, rfl, rfl, rfl, rfl, rfl, ?_, ?_⟩
  · rintro ⟨h1, h2, h3, h4, h5, h6, h7⟩
    cases s
    simp_all [clearResults]
  · intro hpT
    have hcm : t ∉ (clearResults s).scannedParts := by simp [clearResults]
    by_cases hk : (findSeqMarker t.data).isSome = true
    · rcases hrv : M.receivePart M.init t with m | d2
      · have hrv' : M.receivePart ((clearResults s).urDecoder.getD M.init) t =
            Except.error m := hrv
        have hstep := step_throw M (clearResults s) t m hpT hcm hk hrv'
        rw [hstep]
        refine ⟨?_, fun _ => ⟨rfl, rfl⟩, fun hnk => absurd hk (by simp [hnk])⟩
        simp [clearResults, setError, setURDecoder, setIsMultiPart, setScannedParts]
      · have hrv' : M.receivePart ((clearResults s).urDecoder.getD M.init) t =
            Except.ok d2 := hrv
        by_cases hdone : M.isComplete d2 = true
        · have hstep := step_complete M (clearResults s) t d2 hpT hcm hk hrv' hdone
          rw [hstep]
          refine ⟨?_, fun _ => ⟨rfl, ?_⟩, fun hnk => absurd hk (by simp [hnk])⟩
          · by_cases hs : M.isSuccess d2 = true <;>
              simp [hs, clearResults, stopScanning, setError, setDecodedData, setProgress,
                setPartsCount, setURDecoder, setIsMultiPart, setScannedParts]
          · by_cases hs : M.isSuccess d2 = true <;> simp [hs, stopScanning, setError,
              setDecodedData, setProgress, setPartsCount, setURDecoder, setIsMultiPart,
              setScannedParts]
        · have hstep := step_multi_ok M (clearResults s) t d2 hpT hcm hk hrv'
            (by simpa using hdone)
          rw [hstep]
          refine ⟨?_, fun _ => ⟨rfl, rfl⟩, fun hnk => absurd hk (by simp [hnk])⟩
          simp [clearResults, setError, setProgress, setPartsCount, setURDecoder,
            setIsMultiPart, setScannedParts]
    · have hm0 : findSeqMarker t.data = none := by simpa using hk
      have hstep := step_single M (clearResults s) t hpT hm0 hcm
      rw [hstep]
      refine ⟨?_, fun hkk => absurd hkk hk, fun _ => ⟨rfl, rfl⟩⟩
      simp [clearResults, stopScanning, setError, setDecodedData, setProgress, setIsMultiPart,
        setScannedParts]

/-- C7 instantiated on a session holding prior results. -/
theorem c7_reset_clears_holds :
    (clearResults (handleQRResult okDec initSession "ur:a/1-2/b").1).scannedParts = [] ∧
    (clearResults (handleQRResult okDec initSession "ur:a/1-2/b").1).progress = 0 ∧
    clearResults (initSession : ReaderState Unit) = initSession ∧
    (handleQRResult okDec
      (clearResults (handleQRResult okDec initSession "ur:a/1-2/b").1) "ur:a/1-2/b").1.scannedParts =
      ["ur:a/1-2/b"] ∧
    (handleQRResult okDec
      (clearResults (handleQRResult okDec initSession "ur:a/1-2/b").1) "ur:a/1-2/b").2 =
      ["ur:a/1-2/b"] := by
  have h := c7_reset_clears okDec
    ((handleQRResult okDec initSession "ur:a/1-2/b").1) "ur:a/1-2/b"
  have h0 := c7_reset_clears okDec (initSession : ReaderState Unit) "ur:a/1-2/b"
  refine ⟨h.1, h.2.2.1, h0.2.2.2.2.2.2.2.1 ?_, (h.2.2.2.2.2.2.2.2 (by decide)).1,
    ((h.2.2.2.2.2.2.2.2 (by decide)).2.1 (by decide)).1⟩
  exact ⟨rfl, rfl, rfl, rfl, rfl, rfl, rfl⟩

/-- The fallback estimate never exceeds 100. -/
theorem fbp_le_100 (k n : Nat) : fbp k n ≤ 100 := by
  unfold fbp
  split
  · exact le_refl _
  · split
    · assumption
    · exact le_refl _

/-- The fallback estimate is nonnegative. -/
theorem fbp_nonneg (k n : Nat) : 0 ≤ fbp k n := by
  unfold fbp
  split
  · norm_num
  · split
    · positivity
    · norm_num

/-- The fallback estimate grows with the number of unique fragments. -/
theorem fbp_mono (n : Nat) {k k2 : Nat} (h : k ≤ k2) : fbp k n ≤ fbp k2 n := by
  by_cases hn : n = 0
  · unfold fbp
    rw [if_pos hn, if_pos hn]
  · rw [fbp_eq_min k n hn, fbp_eq_min k2 n hn]
    have hnpos : (0 : Rat) < (n : Rat) := by
      exact_mod_cast Nat.pos_of_ne_zero hn
    refine min_le_min ?_ (le_refl _)
    have hdiv : (k : Rat) / (n : Rat) ≤ (k2 : Rat) / (n : Rat) :=
      (div_le_div_iff_of_pos_right hnpos).mpr (by exact_mod_cast h)
    exact mul_le_mul_of_nonneg_right hdiv (by norm_num)

/-- Running a concatenation of fragment lists is running them in turn. -/
theorem runFragments_append (M : URDecoderModel D) (s : ReaderState D)
    (l1 l2 : List String) :
    runFragments M s (l1 ++ l2) = runFragments M (runFragments M s l1) l2 := by
  induction l1 generalizing s with
  | nil => rfl
  | cons t ts ih =>
    simp only [List.cons_append, runFragments]
    exact ih _

/-- In a duplicate-free list, an element never occurs among its own
predecessors. -/
theorem not_mem_take_self (l : List String) (hnd : l.Nodup) (i : Nat)
    (hi : i < l.length) : l[i] ∉ l.take i := by
  intro hmem
  have hsplit : l.take i ++ l.drop i = l := List.take_append_drop i l
  rw [List.drop_eq_getElem_cons hi] at hsplit
  rw [← hsplit] at hnd
  have hd := (List.nodup_append.mp hnd).2.2
  exact hd hmem (List.mem_cons_self _ _)

/-- Invariant for the heuristic-progress run: starting from a fresh session
and feeding distinct scheme-tagged fragments that all declare the same
total `n`, through a decoder with no estimator that accepts every part and
never completes, the set after `i` steps is exactly the first `i` fragments
and the progress is the fallback value at count `i`. -/
theorem c6_run_inv (M : URDecoderModel D) (ts : List String) (n : Nat)
    (hE : M.hasEstimator = false)
    (hrecv : ∀ d t, ∃ d2, M.receivePart d t = Except.ok d2)
    (hcomp : ∀ d, M.isComplete d = false)
    (hval : ∀ t ∈ ts, hasURScheme t = true)
    (hmark : ∀ t ∈ ts, ∃ q : List Char × List Char,
      findSeqMarker t.data = some q ∧ natOfDigits q.2 = n)
    (hnd : ts.Nodup) :
    ∀ i, i ≤ ts.length →
      (runFragments M initSession (ts.take i)).scannedParts = ts.take i ∧
      (runFragments M initSession (ts.take i)).progress =
        (if i = 0 then 0 else fbp i n) := by
  intro i
  induction i with
  | zero => intro _; exact ⟨rfl, rfl⟩
  | succ j ih =>
    intro hj
    have hjlt : j < ts.length := Nat.lt_of_succ_le hj
    obtain ⟨hparts, hprog⟩ := ih (Nat.le_of_lt hjlt)
    have htake : ts.take (j + 1) = ts.take j ++ [ts[j]] := by
      rw [List.take_succ]
      simp [List.getElem?_eq_getElem hjlt]
    set u := runFragments M initSession (ts.take j) with hu
    have hrun : runFragments M initSession (ts.take (j + 1)) =
        (handleQRResult M u ts[j]).1 := by
      rw [htake, runFragments_append]
      rfl
    have hmem : ts[j] ∈ ts := List.getElem_mem hjlt
    have hvt : hasURScheme ts[j] = true := hval _ hmem
    obtain ⟨q, hq, hqn⟩ := hmark _ hmem
    have hct : ts[j] ∉ u.scannedParts := by
      rw [hparts]
      exact not_mem_take_self ts hnd j hjlt
    obtain ⟨d2, hrd⟩ := hrecv (u.urDecoder.getD M.init) ts[j]
    have hstep := step_multi_ok M u ts[j] d2 hvt hct (by simp [hq]) hrd (hcomp d2)
    rw [hrun, hstep]
    constructor
    · show u.scannedParts ++ [ts[j]] = ts.take (j + 1)
      rw [hparts, htake]
    · show (if M.hasEstimator then
          match M.estimatedPercentComplete d2 with
          | some e => e * 100
          | none => fallbackFromMarker ts[j] (u.scannedParts.length + 1)
        else fallbackFromMarker ts[j] (u.scannedParts.length + 1)) =
        (if j + 1 = 0 then 0 else fbp (j + 1) n)
      rw [hE]
      simp only [if_false, Nat.succ_ne_zero, Bool.false_eq_true]
      have hlen : u.scannedParts.length = j := by
        rw [hparts, List.length_take]
        exact min_eq_left (Nat.le_of_lt hjlt)
      rw [hlen]
      simp only [fallbackFromMarker, hq, hqn]

/-- C6: for a fixed declared total `n` carried by every submitted
fragment, over any sequence of distinct valid multi-part fragments that a
completion-free, estimator-free decoder accepts, the heuristic progress is
non-decreasing and never exceeds 100. -/
theorem c6_progress_monotone (M : URDecoderModel D) (ts : List String) (n : Nat)
    (hE : M.hasEstimator = false)
    (hrecv : ∀ d t, ∃ d2, M.receivePart d t = Except.ok d2)
    (hcomp : ∀ d, M.isComplete d = false)
    (hval : ∀ t ∈ ts, hasURScheme t = true)
    (hmark : ∀ t ∈ ts, ∃ q : List Char × List Char,
      findSeqMarker t.data = some q ∧ natOfDigits q.2 = n)
    (hnd : ts.Nodup) :
    ∀ i j, i ≤ j → j ≤ ts.length →
      (runFragments M initSession (ts.take i)).progress ≤
        (runFragments M initSession (ts.take j)).progress ∧
      (runFragments M initSession (ts.take j)).progress ≤ 100 := by
  intro i j hij hj
  have hi := (c6_run_inv M ts n hE hrecv hcomp hval hmark hnd i (le_trans hij hj)).2
  have hjj := (c6_run_inv M ts n hE hrecv hcomp hval hmark hnd j hj).2
  rw [hi, hjj]
  constructor
  · by_cases hi0 : i = 0
    · rw [if_pos hi0]
      split
      · exact le_refl _
      · exact fbp_nonneg j n
    · rw [if_neg hi0, if_neg (by omega)]
      exact fbp_mono n hij
  · split
    · norm_num
    · exact fbp_le_100 j n

/-- C6 instantiated on two distinct fragments declaring three total
parts. -/
theorem c6_progress_monotone_holds :
    (runFragments okDec initSession (["ur:a/1-3/p", "ur:a/2-3/q"].take 1)).progress ≤
      (runFragments okDec initSession (["ur:a/1-3/p", "ur:a/2-3/q"].take 2)).progress ∧
    (runFragments okDec initSession (["ur:a/1-3/p", "ur:a/2-3/q"].take 2)).progress ≤ 100 := by
  refine c6_progress_monotone okDec ["ur:a/1-3/p", "ur:a/2-3/q"] 3 rfl
    (fun d t => ⟨(), rfl⟩) (fun d => rfl) (by decide) ?_ (by decide) 1 2 (by decide) (by decide)
  intro t ht
  simp only [List.mem_cons, List.mem_singleton, List.not_mem_nil, or_false] at ht
  rcases ht with rfl | rfl
  · exact ⟨(['1'], ['3']), by decide, by decide⟩
  · exact ⟨(['2'], ['3']), by decide, by decide⟩

/-- `takeWhile`/`dropWhile` stop exactly at the first failing element. -/
theorem takeWhile_append_not (p : Char → Bool) (l1 : List Char) (c : Char)
    (l2 : List Char) (h1 : ∀ x ∈ l1, p x = true) (h2 : p c = false) :
    (l1 ++ c :: l2).takeWhile p = l1 ∧ (l1 ++ c :: l2).dropWhile p = c :: l2 := by
  induction l1 with
  | nil => simp [List.takeWhile, List.dropWhile, h2]
  | cons a as ih =>
    have ha : p a = true := h1 a (List.mem_cons_self _ _)
    have ihs := ih (fun x hx => h1 x (List.mem_cons_of_mem _ hx))
    simp [List.takeWhile, List.dropWhile, ha, ihs.1, ihs.2]

/-- What a successful anchored match tells us about the input. -/
theorem matchSeqAt_sound (l d1 d2 : List Char) (h : matchSeqAt l = some (d1, d2)) :
    d1 ≠ [] ∧ d2 ≠ [] ∧ (∀ c ∈ d1, c.isDigit = true) ∧ (∀ c ∈ d2, c.isDigit = true) ∧
    ∃ post, l = '/' :: (d1 ++ '-' :: (d2 ++ '/' :: post)) := by
  match l with
  | [] => simp [matchSeqAt] at h
  | c :: r1 =>
    simp only [matchSeqAt] at h
    by_cases hc : c = '/'
    · rw [if_pos hc] at h
      rcases heq1 : r1.dropWhile Char.isDigit with _ | ⟨c2, r2⟩ <;> rw [heq1] at h
      · simp at h
      · simp only [] at h
        by_cases hc2 : c2 = '-'
        · rw [if_pos hc2] at h
          rcases heq2 : r2.dropWhile Char.isDigit with _ | ⟨c3, rest⟩ <;> rw [heq2] at h
          · simp at h
          · simp only [] at h
            by_cases hc3 : c3 = '/'
            · rw [if_pos hc3] at h
              by_cases he1 : r1.takeWhile Char.isDigit = []
              · rw [if_pos he1] at h; simp at h
              · rw [if_neg he1] at h
                by_cases he2 : r2.takeWhile Char.isDigit = []
                · rw [if_pos he2] at h; simp at h
                · rw [if_neg he2] at h
                  have hinj := Option.some.inj h
                  have hd1 : d1 = r1.takeWhile Char.isDigit := (Prod.mk.injEq _ _ _ _ ▸ hinj).1.symm
                  have hd2 : d2 = r2.takeWhile Char.isDigit := (Prod.mk.injEq _ _ _ _ ▸ hinj).2.symm
                  have hs1 := List.takeWhile_append_dropWhile Char.isDigit r1
                  have hs2 := List.takeWhile_append_dropWhile Char.isDigit r2
                  rw [heq1] at hs1
                  rw [heq2] at hs2
                  subst hd1 hd2 hc hc2 hc3
                  refine ⟨he1, he2, fun x hx => List.mem_takeWhile_imp hx,
                    fun x hx => List.mem_takeWhile_imp hx, rest, ?_⟩
                  rw [hs2, hs1]
            · rw [if_neg hc3] at h; simp at h
        · rw [if_neg hc2] at h; simp at h
    · rw [if_neg hc] at h; simp at h

/-- A well-shaped marker substring at the head always matches, with exactly
its two digit groups as captures. -/
theorem matchSeqAt_complete (d1 d2 post : List Char) (h1 : d1 ≠ []) (h2 : d2 ≠ [])
    (hd1 : ∀ c ∈ d1, c.isDigit = true) (hd2 : ∀ c ∈ d2, c.isDigit = true) :
    matchSeqAt ('/' :: (d1 ++ '-' :: (d2 ++ '/' :: post))) = some (d1, d2) := by
  have ht1 := takeWhile_append_not Char.isDigit d1 '-' (d2 ++ '/' :: post) hd1 (by decide)
  have ht2 := takeWhile_append_not Char.isDigit d2 '/' post hd2 (by decide)
  simp only [matchSeqAt, ht1.1, ht1.2, ht2.1, ht2.2, if_pos rfl]
  simp [h1, h2]

/-- A match found by the scanner sits at some position before which no
position matches. -/
theorem findSeqMarker_sound (l : List Char) (m : List Char × List Char)
    (h : findSeqMarker l = some m) :
    ∃ i, matchSeqAt (l.drop i) = some m ∧ ∀ j, j < i → matchSeqAt (l.drop j) = none := by
  induction l with
  | nil => simp [findSeqMarker] at h
  | cons c r ih =>
    unfold findSeqMarker at h
    rcases hm : matchSeqAt (c :: r) with _ | m2 <;> rw [hm] at h
    · obtain ⟨i, hi, hj⟩ := ih h
      refine ⟨i + 1, by simpa using hi, ?_⟩
      intro j hjlt
      cases j with
      | zero => simpa using hm
      | succ j2 => simpa using hj j2 (by omega)
    · have : m2 = m := Option.some.inj h
      subst this
      exact ⟨0, by simpa using hm, fun j hj => absurd hj (Nat.not_lt_zero j)⟩

/-- Conversely, a match anywhere makes the scanner succeed. -/
theorem findSeqMarker_isSome_of (l : List Char) (m : List Char × List Char) :
    ∀ i, matchSeqAt (l.drop i) = some m → (findSeqMarker l).isSome = true := by
  induction l with
  | nil =>
    intro i h
    rw [List.drop_nil] at h
    simp [matchSeqAt] at h
  | cons c r ih =>
    intro i h
    cases i with
    | zero =>
      rw [List.drop_zero] at h
      unfold findSeqMarker
      rw [h]
      rfl
    | succ i2 =>
      rw [List.drop_succ_cons] at h
      unfold findSeqMarker
      rcases hm : matchSeqAt (c :: r) with _ | m2
      · exact ih i2 h
      · rfl

/-- The scanner succeeds exactly on lists containing a marker substring. -/
theorem findSeqMarker_isSome_iff (l : List Char) :
    (findSeqMarker l).isSome = true ↔
    ∃ pre d1 d2 post : List Char,
      d1 ≠ [] ∧ d2 ≠ [] ∧ (∀ c ∈ d1, c.isDigit = true) ∧ (∀ c ∈ d2, c.isDigit = true) ∧
      l = pre ++ '/' :: (d1 ++ '-' :: (d2 ++ '/' :: post)) := by
  constructor
  · intro h
    obtain ⟨⟨d1, d2⟩, hm⟩ := Option.isSome_iff_exists.mp h
    obtain ⟨i, hi, _⟩ := findSeqMarker_sound l (d1, d2) hm
    obtain ⟨h1, h2, hd1, hd2, post, hshape⟩ := matchSeqAt_sound _ d1 d2 hi
    refine ⟨l.take i, d1, d2, post, h1, h2, hd1, hd2, ?_⟩
    conv_lhs => rw [← List.take_append_drop i l]
    rw [hshape]
  · rintro ⟨pre, d1, d2, post, h1, h2, hd1, hd2, hshape⟩
    have hdrop : l.drop pre.length = '/' :: (d1 ++ '-' :: (d2 ++ '/' :: post)) := by
      rw [hshape]
      exact List.drop_left pre _
    exact findSeqMarker_isSome_of l (d1, d2) pre.length
      (by rw [hdrop]; exact matchSeqAt_complete d1 d2 post h1 h2 hd1 hd2)

/-- The scanner's result is the leftmost marker occurrence. -/
theorem findSeqMarker_leftmost (l g1 g2 : List Char)
    (h : findSeqMarker l = some (g1, g2)) :
    ∃ pre post : List Char,
      l = pre ++ '/' :: (g1 ++ '-' :: (g2 ++ '/' :: post)) ∧
      ∀ pre2 e1 e2 post2 : List Char, e1 ≠ [] → e2 ≠ [] →
        (∀ c ∈ e1, c.isDigit = true) → (∀ c ∈ e2, c.isDigit = true) →
        l = pre2 ++ '/' :: (e1 ++ '-' :: (e2 ++ '/' :: post2)) →
        pre.length ≤ pre2.length := by
  obtain ⟨i, hi, hbefore⟩ := findSeqMarker_sound l (g1, g2) h
  obtain ⟨h1, h2, hd1, hd2, post, hshape⟩ := matchSeqAt_sound _ g1 g2 hi
  have hlen : i < l.length := by
    by_contra hge
    rw [List.drop_eq_nil_of_le (by omega)] at hshape
    exact absurd hshape (by simp)
  have hpre : (l.take i).length = i := by
    rw [List.length_take]
    omega
  refine ⟨l.take i, post, ?_, ?_⟩
  · conv_lhs => rw [← List.take_append_drop i l]
    rw [hshape]
  · intro pre2 e1 e2 post2 he1 he2 hed1 hed2 hshape2
    rw [hpre]
    by_contra hlt
    have hdrop : l.drop pre2.length = '/' :: (e1 ++ '-' :: (e2 ++ '/' :: post2)) := by
      rw [hshape2]
      exact List.drop_left pre2 _
    have := hbefore pre2.length (by omega)
    rw [hdrop, matchSeqAt_complete e1 e2 post2 he1 he2 hed1 hed2] at this
    exact absurd this (by simp)

/-- C10: a fresh scheme-tagged fragment is classified as multi-part exactly
when its text contains, anywhere, a substring slash-digits-hyphen-digits-
slash; any such fragment is routed to the decoder path (its text is fed to
`receivePart`), and the declared total used by the fallback progress is the
number parsed from the second digit group of the leftmost such substring. -/
theorem c10_marker_classification (M : URDecoderModel D) (s : ReaderState D) (t : String)
    (hp : hasURScheme t = true) (hc : t ∉ s.scannedParts) :
    ((findSeqMarker t.data).isSome = true ↔ hasSeqSubstring t) ∧
    (handleQRResult M s t).1.isMultiPart = (findSeqMarker t.data).isSome ∧
    ((findSeqMarker t.data).isSome = true → (handleQRResult M s t).2 = [t]) ∧
    (∀ g1 g2 : List Char, findSeqMarker t.data = some (g1, g2) →
      (∃ pre post : List Char,
        t.data = pre ++ '/' :: (g1 ++ '-' :: (g2 ++ '/' :: post)) ∧
        ∀ pre2 e1 e2 post2 : List Char, e1 ≠ [] → e2 ≠ [] →
          (∀ c ∈ e1, c.isDigit = true) → (∀ c ∈ e2, c.isDigit = true) →
          t.data = pre2 ++ '/' :: (e1 ++ '-' :: (e2 ++ '/' :: post2)) →
          pre.length ≤ pre2.length) ∧
      (M.hasEstimator = false →
        ∀ d2, M.receivePart (s.urDecoder.getD M.init) t = Except.ok d2 →
        M.isComplete d2 = false →
        (handleQRResult M s t).1.progress =
          fbp (s.scannedParts.length + 1) (natOfDigits g2))) := by
  refine ⟨findSeqMarker_isSome_iff t.data, ?_, ?_, ?_⟩
  · by_cases hk : (findSeqMarker t.data).isSome = true
    · rw [hk]
      rcases hr : M.receivePart (s.urDecoder.getD M.init) t with m | d2
      · rw [step_throw M s t m hp hc hk hr]; rfl
      · by_cases hdone : M.isComplete d2 = true
        · rw [step_complete M s t d2 hp hc hk hr hdone]
          by_cases hs2 : M.isSuccess d2 = true
          · rw [if_pos hs2]; rfl
          · rw [if_neg hs2]; rfl
        · rw [step_multi_ok M s t d2 hp hc hk hr (by simpa using hdone)]; rfl
    · have hm0 : findSeqMarker t.data = none := by simpa using hk
      rw [step_single M s t hp hm0 hc, hm0]
      rfl
  · intro hk
    rcases hr : M.receivePart (s.urDecoder.getD M.init) t with m | d2
    · rw [step_throw M s t m hp hc hk hr]
    · by_cases hdone : M.isComplete d2 = true
      · rw [step_complete M s t d2 hp hc hk hr hdone]
      · rw [step_multi_ok M s t d2 hp hc hk hr (by simpa using hdone)]
  · intro g1 g2 hm
    refine ⟨findSeqMarker_leftmost t.data g1 g2 hm, ?_⟩
    intro hE d2 hr hnc
    rw [step_multi_ok M s t d2 hp hc (by simp [hm]) hr hnc]
    show (if M.hasEstimator then
          match M.estimatedPercentComplete d2 with
          | some e => e * 100
          | none => fallbackFromMarker t (s.scannedParts.length + 1)
        else fallbackFromMarker t (s.scannedParts.length + 1)) = _
    rw [hE]
    simp only [if_false, Bool.false_eq_true]
    simp only [fallbackFromMarker, hm]

/-- C10 instantiated on a fragment declaring seven total parts. -/
theorem c10_marker_classification_holds :
    ((findSeqMarker "ur:x/2-7/q".data).isSome = true ↔ hasSeqSubstring "ur:x/2-7/q") ∧
    (handleQRResult okDec initSession "ur:x/2-7/q").1.isMultiPart = true ∧
    (handleQRResult okDec initSession "ur:x/2-7/q").2 = ["ur:x/2-7/q"] ∧
    (handleQRResult okDec initSession "ur:x/2-7/q").1.progress =
      fbp 1 (natOfDigits ['7']) := by
  have h := c10_marker_classification okDec (initSession : ReaderState Unit) "ur:x/2-7/q"
    (by decide) (by decide)
  refine ⟨h.1, ?_, h.2.2.1 (by decide), ?_⟩
  · rw [h.2.1]
    decide
  · exact (h.2.2.2 ['2'] ['7'] (by decide)).2 rfl () rfl rfl
